import Mathlib

/-!
Shallow embedding of the `arweave-script` repository:
`arweave_latency.js` (upload/latency test) and the read-test script.
Pure fragments (size parsing, integrity comparison, progress policy) become
Lean functions; the availability poll loop becomes a recursive function over
a probe oracle; the scripts' control flow becomes straight-line functions over
an environment describing the outcomes of the network and file-system calls.
-/

namespace ArweaveScript

/-- `maxWaitMs = 10 * 60 * 1000` from `arweave_latency.js`. -/
def maxWaitMs : Nat := 10 * 60 * 1000

/-- `pollIntervalMs = 2000` from `arweave_latency.js`. -/
def pollIntervalMs : Nat := 2000

/-- Outcome of one HEAD probe (`fetch(url, { method: "HEAD" })`):
the response with `head.ok` true, the response with `head.ok` false
(carrying the `${head.status} ${head.statusText}` text), or a thrown
transport error carrying `e.message`. -/
inductive ProbeResult where
  | ok (statusText : String)
  | notOk (statusText : String)
  | err (msg : String)
deriving DecidableEq

/-- `e.message || "fetch error"` from the poll loop's catch block. -/
def errStatusText (msg : String) : String :=
  if msg = "" then "fetch error" else msg

/-- The value assigned to `statusText` by one poll iteration. -/
def probeStatusText : ProbeResult → String
  | .ok s => s
  | .notOk s => s
  | .err m => errStatusText m

/-- Whether the probe reached `head.ok` true (the `break` condition). -/
def probeOk : ProbeResult → Bool
  | .ok _ => true
  | .notOk _ => false
  | .err _ => false

/-- Final poll state: `available`, `statusText`, how many probes were issued,
how many `sleep(pollIntervalMs)` calls ran, and the final `waitedMs`. -/
structure PollResult where
  available : Bool
  statusText : String
  attempts : Nat
  sleeps : Nat
  waitedMs : Nat
deriving DecidableEq

/-- The `while (waitedMs <= maxWaitMs)` loop of `arweave_latency.js`,
parameterised by a probe oracle giving the result of the i-th HEAD request.
`attempt` counts probes already completed (each was followed by one sleep),
`waited` is the current `waitedMs`, `status` the last `statusText`. -/
def pollAux (probe : Nat → ProbeResult) (attempt waited : Nat) (status : String) :
    PollResult :=
  if _hw : waited ≤ maxWaitMs then
    if probeOk (probe attempt) then
      ⟨true, probeStatusText (probe attempt), attempt + 1, attempt, waited⟩
    else
      pollAux probe (attempt + 1) (waited + pollIntervalMs)
        (probeStatusText (probe attempt))
  else
    ⟨false, status, attempt, attempt, waited⟩
termination_by maxWaitMs + pollIntervalMs - waited
decreasing_by simp only [maxWaitMs, pollIntervalMs] at *; omega

/-- The availability poller as run by the script: `waitedMs = 0`,
no probes issued yet, empty initial `statusText`. -/
def pollLoop (probe : Nat → ProbeResult) : PollResult :=
  pollAux probe 0 0 ""

theorem pollAux_unfold (probe : Nat → ProbeResult) (a w : Nat) (s : String) :
    pollAux probe a w s =
      if w ≤ maxWaitMs then
        if probeOk (probe a) then
          ⟨true, probeStatusText (probe a), a + 1, a, w⟩
        else
          pollAux probe (a + 1) (w + pollIntervalMs) (probeStatusText (probe a))
      else
        ⟨false, s, a, a, w⟩ := by
  rw [pollAux]
  split <;> rfl

/-- If the first `N` probes fail and probe `N` succeeds while the loop is
still running, the loop started at probe `j ≤ N` (with `waited = j * interval`)
ends in success with `N + 1` attempts, `N` sleeps and `waitedMs = N * interval`. -/
theorem pollAux_succeeds (probe : Nat → ProbeResult) (N : Nat)
    (hfail : ∀ i, i < N → probeOk (probe i) = false)
    (hok : probeOk (probe N) = true)
    (hN : N * pollIntervalMs ≤ maxWaitMs) :
    ∀ d j s, N - j = d → j ≤ N →
      pollAux probe j (j * pollIntervalMs) s =
        ⟨true, probeStatusText (probe N), N + 1, N, N * pollIntervalMs⟩ := by
  intro d
  induction d with
  | zero =>
    intro j s hd hj
    have hjN : j = N := by omega
    subst hjN
    rw [pollAux_unfold, if_pos hN, if_pos hok]
  | succ d ih =>
    intro j s hd hj
    have hjN : j < N := by omega
    have hw : j * pollIntervalMs ≤ maxWaitMs :=
      le_trans (Nat.mul_le_mul_right _ (le_of_lt hjN)) hN
    rw [pollAux_unfold, if_pos hw, if_neg (by simp [hfail j hjN])]
    have hstep : j * pollIntervalMs + pollIntervalMs = (j + 1) * pollIntervalMs := by
      ring
    rw [hstep]
    exact ih (j + 1) _ (by omega) (by omega)

/-- If every probe fails, the loop started at probe `j ≤ 301`
(with `waited = j * 2000`) times out with 301 attempts, 301 sleeps and
`waitedMs = 602000`. -/
theorem pollAux_allFail (probe : Nat → ProbeResult)
    (hfail : ∀ i, probeOk (probe i) = false) :
    ∀ d j s, 301 - j = d → j ≤ 301 →
      (pollAux probe j (j * pollIntervalMs) s).available = false ∧
      (pollAux probe j (j * pollIntervalMs) s).attempts = 301 ∧
      (pollAux probe j (j * pollIntervalMs) s).sleeps = 301 ∧
      (pollAux probe j (j * pollIntervalMs) s).waitedMs = 301 * pollIntervalMs := by
  intro d
  induction d with
  | zero =>
    intro j s hd hj
    have hjN : j = 301 := by omega
    subst hjN
    have hw : ¬ (301 * pollIntervalMs ≤ maxWaitMs) := by
      simp only [maxWaitMs, pollIntervalMs]; omega
    rw [pollAux_unfold, if_neg hw]
    exact ⟨rfl, rfl, rfl, rfl⟩
  | succ d ih =>
    intro j s hd hj
    have hjN : j < 301 := by omega
    have hw : j * pollIntervalMs ≤ maxWaitMs := by
      simp only [maxWaitMs, pollIntervalMs]
      have : j * 2000 ≤ 300 * 2000 := Nat.mul_le_mul_right _ (by omega)
      omega
    rw [pollAux_unfold, if_pos hw, if_neg (by simp [hfail j])]
    have hstep : j * pollIntervalMs + pollIntervalMs = (j + 1) * pollIntervalMs := by
      ring
    rw [hstep]
    exact ih (j + 1) _ (by omega) (by omega)

/-- Whenever the loop ends without success, the final `waitedMs` exceeds
`maxWaitMs` (the guard is the only way out besides `break`). -/
theorem pollAux_timeout_exceeds (probe : Nat → ProbeResult) :
    ∀ d w a s, maxWaitMs + pollIntervalMs - w ≤ d →
      (pollAux probe a w s).available = false →
      maxWaitMs < (pollAux probe a w s).waitedMs := by
  intro d
  induction d with
  | zero =>
    intro w a s hd hna
    have hw : ¬ (w ≤ maxWaitMs) := by
      simp only [maxWaitMs, pollIntervalMs] at hd ⊢; omega
    rw [pollAux_unfold, if_neg hw]
    rw [pollAux_unfold, if_neg hw] at hna
    simp only
    omega
  | succ d ih =>
    intro w a s hd hna
    by_cases hw : w ≤ maxWaitMs
    · rw [pollAux_unfold, if_pos hw] at hna ⊢
      by_cases hp : probeOk (probe a) = true
      · rw [if_pos hp] at hna
        simp at hna
      · rw [if_neg hp] at hna ⊢
        exact ih _ _ _ (by simp only [maxWaitMs, pollIntervalMs] at hd ⊢; omega) hna
    · rw [pollAux_unfold, if_neg hw]
      simp only
      omega

/-- C1: if the HEAD probe fails on each of the first N attempts and succeeds
on attempt N+1, with N × 2000 ms within the 600000 ms maximum wait, the poller
stops with `available = true` after exactly N+1 probe attempts, having slept
N times, with accumulated wait time ≥ N × 2000 ms. -/
theorem poller_success_after_N_failures (probe : Nat → ProbeResult) (N : Nat)
    (hfail : ∀ i, i < N → probeOk (probe i) = false)
    (hok : probeOk (probe N) = true)
    (hN : N * pollIntervalMs ≤ maxWaitMs) :
    (pollLoop probe).available = true ∧
    (pollLoop probe).attempts = N + 1 ∧
    (pollLoop probe).sleeps = N ∧
    N * pollIntervalMs ≤ (pollLoop probe).waitedMs := by
  have h := pollAux_succeeds probe N hfail hok hN N 0 "" (by omega) (Nat.zero_le N)
  rw [Nat.zero_mul] at h
  rw [pollLoop, h]
  exact ⟨rfl, rfl, rfl, le_refl _⟩

theorem poller_success_after_N_failures_witness :
    (pollLoop fun _ => .ok "200 OK").available = true ∧
    (pollLoop fun _ => .ok "200 OK").attempts = 0 + 1 ∧
    (pollLoop fun _ => .ok "200 OK").sleeps = 0 ∧
    0 * pollIntervalMs ≤ (pollLoop fun _ => .ok "200 OK").waitedMs :=
  poller_success_after_N_failures (fun _ => .ok "200 OK") 0
    (fun i hi => absurd hi (Nat.not_lt_zero i)) rfl (by decide)

/-- C2: if every HEAD probe fails, the poll loop terminates: it reports
`available = false` with accumulated wait time ≥ the 600000 ms maximum,
exceeding the maximum by at most one 2000 ms interval, after at most 301
probe attempts. -/
theorem poller_timeout_when_all_fail (probe : Nat → ProbeResult)
    (hfail : ∀ i, probeOk (probe i) = false) :
    (pollLoop probe).available = false ∧
    maxWaitMs ≤ (pollLoop probe).waitedMs ∧
    (pollLoop probe).waitedMs ≤ maxWaitMs + pollIntervalMs ∧
    (pollLoop probe).attempts ≤ 301 := by
  have h := pollAux_allFail probe hfail 301 0 "" (by omega) (Nat.zero_le _)
  rw [Nat.zero_mul] at h
  rw [pollLoop]
  refine ⟨h.1, ?_, ?_, ?_⟩
  · rw [h.2.2.2]; simp only [maxWaitMs, pollIntervalMs]; omega
  · rw [h.2.2.2]; simp only [maxWaitMs, pollIntervalMs]; omega
  · rw [h.2.1]

theorem poller_timeout_when_all_fail_witness :
    (pollLoop fun _ => .notOk "404 Not Found").available = false ∧
    maxWaitMs ≤ (pollLoop fun _ => .notOk "404 Not Found").waitedMs ∧
    (pollLoop fun _ => .notOk "404 Not Found").waitedMs ≤ maxWaitMs + pollIntervalMs ∧
    (pollLoop fun _ => .notOk "404 Not Found").attempts ≤ 301 :=
  poller_timeout_when_all_fail (fun _ => .notOk "404 Not Found") (fun _ => rfl)

/-- C3: a transport error thrown by the HEAD fetch is not fatal: while the
loop is running, an attempt whose probe throws records the error message
(`e.message || "fetch error"`) as the last status, adds one poll-interval
sleep and continues with the next attempt; and the loop ends without success
only with accumulated wait exceeding the maximum wait. -/
theorem poller_transport_error_not_fatal (probe : Nat → ProbeResult)
    (a w : Nat) (s msg : String)
    (hprobe : probe a = .err msg) (hw : w ≤ maxWaitMs) :
    pollAux probe a w s =
      pollAux probe (a + 1) (w + pollIntervalMs) (errStatusText msg) ∧
    (∀ b v t, (pollAux probe b v t).available = false →
      maxWaitMs < (pollAux probe b v t).waitedMs) := by
  constructor
  · rw [pollAux_unfold, if_pos hw, hprobe]
    rfl
  · intro b v t hna
    exact pollAux_timeout_exceeds probe (maxWaitMs + pollIntervalMs) v b t
      (by omega) hna

theorem poller_transport_error_not_fatal_witness :
    pollAux (fun _ => .err "socket hang up") 0 0 "" =
      pollAux (fun _ => .err "socket hang up") (0 + 1) (0 + pollIntervalMs)
        (errStatusText "socket hang up") ∧
    (∀ b v t, (pollAux (fun _ => .err "socket hang up") b v t).available = false →
      maxWaitMs < (pollAux (fun _ => .err "socket hang up") b v t).waitedMs) :=
  poller_transport_error_not_fatal (fun _ => .err "socket hang up") 0 0 ""
    "socket hang up" rfl (by decide)

/-- `parseInt(m[1], 10)` on a decimal digit string. -/
def digitsToNat (ds : List Char) : Nat :=
  ds.foldl (fun acc c => acc * 10 + (c.toNat - Char.toNat ( '0' ))) 0

/-- The unit strings matched by `[KMG]?B?` (after upper-casing). -/
def sizeUnits : List String := ["", "B", "K", "KB", "M", "MB", "G", "GB"]

/-- `parseSize` from `arweave_latency.js`, on the character list of its input.
The regex `^(\d+)([KMG]?B?)$/i` splits the string into a nonempty maximal
digit prefix and a unit suffix in `sizeUnits` (case-insensitive); failure to
match throws, modelled as `none`. The matched branches then apply the binary
multipliers; any other matched unit falls through to `return n`. -/
def parseSizeChars (cs : List Char) : Option Nat :=
  let digits := cs.takeWhile Char.isDigit
  let unit : String := ((cs.dropWhile Char.isDigit).map Char.toUpper).asString
  if digits.isEmpty then none
  else if unit ∉ sizeUnits then none
  else
    let n := digitsToNat digits
    if unit = "KB" then some (n * 1024)
    else if unit = "MB" then some (n * 1024 * 1024)
    else if unit = "GB" then some (n * 1024 * 1024 * 1024)
    else some n

/-- `parseSize` on a string. -/
def parseSize (str : String) : Option Nat :=
  parseSizeChars str.toList

theorem takeWhile_append_all {α : Type} (p : α → Bool) :
    ∀ ds u : List α, (∀ c ∈ ds, p c = true) → (∀ c ∈ u, p c = false) →
      (ds ++ u).takeWhile p = ds ∧ (ds ++ u).dropWhile p = u := by
  intro ds
  induction ds with
  | nil =>
    intro u _ hu
    cases u with
    | nil => simp [List.takeWhile, List.dropWhile]
    | cons a t =>
      simp [List.takeWhile, List.dropWhile, hu a (List.mem_cons_self a t)]
  | cons a t ih =>
    intro u hds hu
    have ha : p a = true := hds a (List.mem_cons_self a t)
    have ht := ih u (fun c hc => hds c (List.mem_cons_of_mem a hc)) hu
    simp [List.takeWhile, List.dropWhile, ha, ht.1, ht.2]

theorem parseSizeChars_split (ds u : List Char)
    (hne : ds ≠ []) (hds : ∀ c ∈ ds, c.isDigit = true)
    (hu : ∀ c ∈ u, c.isDigit = false) :
    parseSizeChars (ds ++ u) =
      (if ((u.map Char.toUpper).asString ∉ sizeUnits) then none
       else if (u.map Char.toUpper).asString = "KB" then some (digitsToNat ds * 1024)
       else if (u.map Char.toUpper).asString = "MB" then
         some (digitsToNat ds * 1024 * 1024)
       else if (u.map Char.toUpper).asString = "GB" then
         some (digitsToNat ds * 1024 * 1024 * 1024)
       else some (digitsToNat ds)) := by
  have h := takeWhile_append_all Char.isDigit ds u hds hu
  rw [parseSizeChars]
  simp only [h.1, h.2, List.isEmpty_iff]
  rw [if_neg hne]

/-- C5: every valid size token resolves to the exact byte count with binary
multipliers, case-insensitively: a digit string followed by a suffix
upper-casing to "KB", "MB" or "GB" multiplies by 1024, 1024² or 1024³, and an
empty or "B" suffix returns the bare integer; in particular
`parseSize "10KB" = 10240`, `parseSize "1MB" = 1048576`,
`parseSize "1GB" = 1073741824` and `parseSize "500" = 500`. -/
theorem parseSize_valid_tokens (ds u : List Char)
    (hne : ds ≠ []) (hds : ∀ c ∈ ds, c.isDigit = true)
    (hu : ∀ c ∈ u, c.isDigit = false) :
    ((u.map Char.toUpper) = [ 'K', 'B'] →
        parseSizeChars (ds ++ u) = some (digitsToNat ds * 1024)) ∧
    ((u.map Char.toUpper) = [ 'M', 'B'] →
        parseSizeChars (ds ++ u) = some (digitsToNat ds * 1048576)) ∧
    ((u.map Char.toUpper) = [ 'G', 'B'] →
        parseSizeChars (ds ++ u) = some (digitsToNat ds * 1073741824)) ∧
    (u = [] → parseSizeChars (ds ++ u) = some (digitsToNat ds)) ∧
    ((u.map Char.toUpper) = [ 'B'] →
        parseSizeChars (ds ++ u) = some (digitsToNat ds)) ∧
    parseSize "10KB" = some 10240 ∧ parseSize "1MB" = some 1048576 ∧
    parseSize "1GB" = some 1073741824 ∧ parseSize "500" = some 500 := by
  have hsplit := parseSizeChars_split ds u hne hds hu
  refine ⟨?_, ?_, ?_, ?_, ?_, by decide, by decide, by decide, by decide⟩
  · intro hmap
    rw [hsplit, hmap, if_neg (by decide), if_pos (by decide)]
  · intro hmap
    rw [hsplit, hmap, if_neg (by decide), if_neg (by decide), if_pos (by decide)]
    rw [show digitsToNat ds * 1024 * 1024 = digitsToNat ds * 1048576 by ring]
  · intro hmap
    rw [hsplit, hmap, if_neg (by decide), if_neg (by decide), if_neg (by decide),
      if_pos (by decide)]
    rw [show digitsToNat ds * 1024 * 1024 * 1024 = digitsToNat ds * 1073741824 by ring]
  · intro hmap
    subst hmap
    rw [hsplit, if_neg (by decide), if_neg (by decide), if_neg (by decide),
      if_neg (by decide)]
  · intro hmap
    rw [hsplit, hmap, if_neg (by decide), if_neg (by decide), if_neg (by decide),
      if_neg (by decide)]

theorem parseSize_valid_tokens_witness :
    parseSizeChars ([ '1', '0'] ++ [ 'k', 'b']) = some (digitsToNat [ '1', '0'] * 1024) :=
  (parseSize_valid_tokens [ '1', '0'] [ 'k', 'b'] (by decide) (by decide) (by decide)).1
    (by decide)

/-- C6 counterexample: the single-letter-suffix token "5M" does not fail;
it matches `[KMG]?B?` and falls through to `return n`, yielding 5 bytes. -/
theorem parseSize_single_letter_suffix_accepted : parseSize "5M" = some 5 := by
  decide

/-- C6 amended: a size token fails with a format error exactly when it falls
outside the regex `^(\d+)([KMG]?B?)$/i`: no nonempty leading digit string, or
a suffix whose upper-casing is not one of "", "B", "K", "KB", "M", "MB", "G",
"GB" (so "5XB", "MB5" and "" all fail, but single letters K/M/G are accepted
and return the bare integer). -/
theorem parseSize_invalid_tokens (cs : List Char)
    (hbad : cs.takeWhile Char.isDigit = [] ∨
      ((cs.dropWhile Char.isDigit).map Char.toUpper).asString ∉ sizeUnits) :
    parseSizeChars cs = none ∧
    parseSize "5XB" = none ∧ parseSize "MB5" = none ∧ parseSize "" = none := by
  refine ⟨?_, by decide, by decide, by decide⟩
  rw [parseSizeChars]
  rcases hbad with hd | hu
  · simp [hd]
  · simp only [List.isEmpty_iff]
    by_cases hd : cs.takeWhile Char.isDigit = []
    · rw [if_pos hd]
    · rw [if_neg hd, if_pos hu]

theorem parseSize_invalid_tokens_witness :
    parseSizeChars ([ '5', 'X', 'B']) = none :=
  (parseSize_invalid_tokens [ '5', 'X', 'B'] (Or.inr (by decide))).1

/-- `const same = dlBuf.length === sizeBytes && dlBuf.equals(data)`,
with buffers as lists of byte values. -/
def integritySame (dlBuf data : List Nat) (sizeBytes : Nat) : Bool :=
  dlBuf.length == sizeBytes && dlBuf == data

/-- `same ? "PASS" : "FAIL"`, printed and stored as `results.integrityCheck`. -/
def integrityReport (dlBuf data : List Nat) (sizeBytes : Nat) : String :=
  if integritySame dlBuf data sizeBytes then "PASS" else "FAIL"

/-- C4: when the generated payload has the requested length, the reported
integrity check is "PASS" iff the downloaded buffer has the payload's length
and is byte-for-byte equal to it; every other case (any byte difference or
length difference) is "FAIL", and no third outcome exists. -/
theorem integrity_pass_iff (dlBuf data : List Nat) (sizeBytes : Nat)
    (hdata : data.length = sizeBytes) :
    (integrityReport dlBuf data sizeBytes = "PASS" ↔
      dlBuf.length = data.length ∧ dlBuf = data) ∧
    (integrityReport dlBuf data sizeBytes = "PASS" ∨
      integrityReport dlBuf data sizeBytes = "FAIL") := by
  subst hdata
  constructor
  · rw [integrityReport]
    constructor
    · intro hp
      by_cases hs : integritySame dlBuf data data.length = true
      · rw [integritySame, Bool.and_eq_true, beq_iff_eq, beq_iff_eq] at hs
        exact hs
      · rw [if_neg hs] at hp
        exact absurd hp (by decide)
    · intro ⟨hlen, heq⟩
      rw [if_pos]
      rw [integritySame, Bool.and_eq_true, beq_iff_eq, beq_iff_eq]
      exact ⟨hlen, heq⟩
  · rw [integrityReport]
    by_cases hs : integritySame dlBuf data data.length = true
    · exact Or.inl (by rw [if_pos hs])
    · exact Or.inr (by rw [if_neg hs])

theorem integrity_pass_iff_witness :
    (integrityReport [1, 2] [1, 2] 2 = "PASS" ↔
      List.length [1, 2] = List.length [1, 2] ∧ [1, 2] = [1, 2]) ∧
    (integrityReport [1, 2] [1, 2] 2 = "PASS" ∨
      integrityReport [1, 2] [1, 2] 2 = "FAIL") :=
  integrity_pass_iff [1, 2] [1, 2] 2 (by decide)

/-- The 10 MiB progress boundary `10 * 1024 * 1024` from the read script. -/
def progressBoundary : Nat := 10 * 1024 * 1024

/-- The read script's streaming read loop, restricted to its observable
progress output: for each received chunk it adds the chunk length to
`downloadedBytes` and emits a progress line exactly when
`expectedSize > 0 && downloadedBytes % (10 * 1024 * 1024) < value.length`
(with `downloadedBytes` already including the chunk). Chunks are modelled by
their lengths. -/
def emitFlags (expectedSize : Nat) : Nat → List Nat → List Bool
  | _, [] => []
  | downloaded, len :: rest =>
    (decide (0 < expectedSize) && decide ((downloaded + len) % progressBoundary < len)) ::
      emitFlags expectedSize (downloaded + len) rest

theorem emitFlags_length (expectedSize : Nat) :
    ∀ downloaded chunks, (emitFlags expectedSize downloaded chunks).length = chunks.length := by
  intro downloaded chunks
  induction chunks generalizing downloaded with
  | nil => rfl
  | cons len rest ih => simp [emitFlags, ih]

theorem emitFlags_getD (expectedSize : Nat) :
    ∀ chunks downloaded i, i < chunks.length →
      (emitFlags expectedSize downloaded chunks).getD i false =
        (decide (0 < expectedSize) &&
          decide ((downloaded + (chunks.take (i + 1)).sum) % progressBoundary <
            chunks.getD i 0)) := by
  intro chunks
  induction chunks with
  | nil => intro downloaded i h; simp at h
  | cons len rest ih =>
    intro downloaded i h
    cases i with
    | zero =>
      simp [emitFlags, List.take, List.sum_cons]
    | succ j =>
      have hj : j < rest.length := by simpa using h
      simp only [emitFlags, List.getD_cons_succ, List.take, List.sum_cons]
      rw [ih (downloaded + len) j hj, Nat.add_assoc]

/-- C7: in the streaming read loop, a progress line is emitted for the i-th
received chunk iff the expected size from metadata is strictly positive and
the cumulative byte count including that chunk, taken mod 10485760, is
strictly less than the chunk's length. -/
theorem progress_emitted_iff (expectedSize : Nat) (chunks : List Nat) (i : Nat)
    (h : i < chunks.length) :
    (emitFlags expectedSize 0 chunks).getD i false = true ↔
      0 < expectedSize ∧
        ((chunks.take (i + 1)).sum % 10485760 < chunks.getD i 0) := by
  rw [emitFlags_getD expectedSize chunks 0 i h, Bool.and_eq_true,
    decide_eq_true_iff, decide_eq_true_iff, Nat.zero_add]
  rw [show progressBoundary = 10485760 from rfl]

theorem progress_emitted_iff_witness :
    ((emitFlags 1 0 [5]).getD 0 false = true ↔
      0 < 1 ∧ (([5].take 1).sum % 10485760 < [5].getD 0 0)) :=
  progress_emitted_iff 1 [5] 0 (by decide)

/-- Environment of the upload test after the upload phase: the probe oracle
for the availability loop, the download response (`resp.ok` plus body bytes),
the generated payload and its requested size, and whether writing the results
file succeeds. -/
structure LatencyEnv where
  probe : Nat → ProbeResult
  downloadOk : Bool
  downloadBody : List Nat
  data : List Nat
  sizeBytes : Nat
  resultsWriteOk : Bool

/-- Observable outcome of the upload test from the availability wait onward:
the poll result, whether the download GET was issued, the integrity check
result if computed, and the process exit code. -/
structure LatencyOutcome where
  poll : PollResult
  downloadAttempted : Bool
  integrityCheck : Option String
  exitCode : Nat
deriving DecidableEq

/-- The upload test's control flow from the availability wait onward
(`arweave_latency.js` lines 62-147): poll; if not available, log and
`process.exit(0)` before the download; if the download status is not ok,
`process.exit(1)`; otherwise compute the integrity check and write the
results file (a write failure falls to the top-level catch, exiting 1). -/
def latencyMain (env : LatencyEnv) : LatencyOutcome :=
  let poll := pollLoop env.probe
  if !poll.available then
    ⟨poll, false, none, 0⟩
  else if !env.downloadOk then
    ⟨poll, true, none, 1⟩
  else
    let report := integrityReport env.downloadBody env.data env.sizeBytes
    if env.resultsWriteOk then
      ⟨poll, true, some report, 0⟩
    else
      ⟨poll, true, some report, 1⟩

/-- C8: if the availability poller times out (`available = false`), the upload
test skips the download and integrity phases entirely and exits with code 0. -/
theorem unavailable_early_exit_code_zero (env : LatencyEnv)
    (h : (pollLoop env.probe).available = false) :
    (latencyMain env).exitCode = 0 ∧
    (latencyMain env).downloadAttempted = false ∧
    (latencyMain env).integrityCheck = none := by
  rw [latencyMain]
  simp only [h]
  exact ⟨rfl, rfl, rfl⟩

theorem unavailable_early_exit_code_zero_witness :
    (latencyMain ⟨fun _ => .notOk "404 Not Found", true, [], [], 0, true⟩).exitCode = 0 ∧
    (latencyMain ⟨fun _ => .notOk "404 Not Found", true, [], [], 0, true⟩).downloadAttempted
      = false ∧
    (latencyMain ⟨fun _ => .notOk "404 Not Found", true, [], [], 0, true⟩).integrityCheck
      = none :=
  unavailable_early_exit_code_zero ⟨fun _ => .notOk "404 Not Found", true, [], [], 0, true⟩
    (pollAux_allFail (fun _ => .notOk "404 Not Found") (fun _ => rfl) 301 0 ""
      (by omega) (Nat.zero_le _)).1

/-- The reduced error report persisted on an unhandled error:
`{ timestamp, error: err.message || String(err), ... }`. -/
structure ErrorReport where
  timestamp : String
  message : String
deriving DecidableEq

/-- Observable outcome of the upload test's top-level catch block
(`arweave_latency.js` lines 148-163). -/
structure CatchOutcome where
  timesCaught : Nat
  errorLogged : Bool
  errorReport : Option ErrorReport
  writeFailureLogged : Bool
  exitCode : Nat
deriving DecidableEq

/-- The upload test's top-level catch: log the error, try to write the error
report file; if that write throws, log the write failure; `process.exit(1)`
either way. -/
def latencyCatch (timestamp msg : String) (errorWriteOk : Bool) : CatchOutcome :=
  if errorWriteOk then
    ⟨1, true, some ⟨timestamp, msg⟩, false, 1⟩
  else
    ⟨1, true, none, true, 1⟩

/-- Metadata response from `GET /tx/<txid>`: `metaResp.ok` and the parsed
`parseInt(metadata.data_size || "0", 10)` value (0 when the field is absent). -/
structure MetaResponse where
  ok : Bool
  dataSize : Nat
deriving DecidableEq

/-- HEAD response from the raw endpoint: `head.ok`. -/
structure HeadResponse where
  ok : Bool
deriving DecidableEq

/-- Download response from `GET /raw/<txid>`: `resp.ok` and the streamed
chunks, modelled by their lengths. -/
structure DownloadResponse where
  ok : Bool
  chunks : List Nat

/-- Environment of one read-test run: the outcome of each network call
(`Except.error` models a thrown transport error carrying `err.message`),
and whether each `fs.writeFile` throws (`some msg`) or succeeds (`none`). -/
structure ReadEnv where
  metaResult : Except String MetaResponse
  headResult : Except String HeadResponse
  downloadResult : Except String DownloadResponse
  resultsWriteErr : Option String
  errorWriteErr : Option String
  timestamp : String

/-- The `verification` part of the read-test results file. -/
structure ReadReport where
  expectedSize : Nat
  actualSize : Nat
  chunksCount : Nat
  sizeMatch : Option Bool
deriving DecidableEq

/-- Observable outcome of one read-test run. -/
structure ReadOutcome where
  expectedSize : Nat
  exitCode : Nat
  report : Option ReadReport
  sizeLinePrinted : Bool
  progressFlags : List Bool
  errorReport : Option ErrorReport
  downloadErrorCaught : Nat
  outerCatchHit : Bool

/-- `expectedSize` as the read script computes it: 0 initially, updated from
`metadata.data_size` only when the metadata fetch neither throws nor returns
a non-ok status. -/
def readExpectedSize (env : ReadEnv) : Nat :=
  match env.metaResult with
  | .error _ => 0
  | .ok m => if m.ok then m.dataSize else 0

/-- The read script's download catch block (lines 229-250): write the error
report and `process.exit(1)`; if that write itself throws, the write error
propagates to the outer catch (lines 252-255), which logs it and exits 1.
`printed`/`flags` carry output already produced inside the try block. -/
def readDownloadCatch (env : ReadEnv) (expectedSize : Nat) (msg : String)
    (printed : Bool) (flags : List Bool) : ReadOutcome :=
  match env.errorWriteErr with
  | none => ⟨expectedSize, 1, none, printed, flags, some ⟨env.timestamp, msg⟩, 1, false⟩
  | some _ => ⟨expectedSize, 1, none, printed, flags, none, 1, true⟩

/-- The read script's control flow (the main IIFE of the read test):
metadata fetch (errors and non-ok statuses swallowed), HEAD probe on the raw
endpoint (failure or non-ok exits 1), streaming download with progress
reporting, size verification printed only when `expectedSize > 0`,
`sizeMatch` set to a boolean only when `expectedSize > 0` and to `null`
otherwise, then the results file write (whose failure is caught by the
download catch, the write being inside the try block). -/
def readRun (env : ReadEnv) : ReadOutcome :=
  let expectedSize := readExpectedSize env
  match env.headResult with
  | .error _ => ⟨expectedSize, 1, none, false, [], none, 0, false⟩
  | .ok h =>
    if !h.ok then ⟨expectedSize, 1, none, false, [], none, 0, false⟩
    else
      match env.downloadResult with
      | .error msg => readDownloadCatch env expectedSize msg false []
      | .ok d =>
        if !d.ok then ⟨expectedSize, 1, none, false, [], none, 0, false⟩
        else
          let flags := emitFlags expectedSize 0 d.chunks
          let actualSize := d.chunks.sum
          let printed := decide (0 < expectedSize)
          let sizeMatch := if 0 < expectedSize then some (expectedSize == actualSize)
            else none
          let report : ReadReport := ⟨expectedSize, actualSize, d.chunks.length, sizeMatch⟩
          match env.resultsWriteErr with
          | none => ⟨expectedSize, 0, some report, printed, flags, none, 0, false⟩
          | some msg => readDownloadCatch env expectedSize msg printed flags

/-- C9: an unhandled error reaching the top level of either script is caught
exactly once, logged, and an error report with the timestamp and error message
is best-effort written before the process exits 1; a failure to write that
report is itself logged (in the read test, by the outer catch) and the exit
code remains 1. -/
theorem toplevel_error_handling (timestamp msg : String) (writeOk : Bool)
    (env : ReadEnv) (emsg : String) (h : HeadResponse)
    (hhead : env.headResult = .ok h) (hok : h.ok = true)
    (hdl : env.downloadResult = .error emsg) :
    ((latencyCatch timestamp msg writeOk).timesCaught = 1 ∧
     (latencyCatch timestamp msg writeOk).errorLogged = true ∧
     (latencyCatch timestamp msg writeOk).exitCode = 1 ∧
     (writeOk = true →
       (latencyCatch timestamp msg writeOk).errorReport = some ⟨timestamp, msg⟩) ∧
     (writeOk = false →
       (latencyCatch timestamp msg writeOk).errorReport = none ∧
       (latencyCatch timestamp msg writeOk).writeFailureLogged = true)) ∧
    ((readRun env).downloadErrorCaught = 1 ∧
     (readRun env).exitCode = 1 ∧
     (env.errorWriteErr = none →
       (readRun env).errorReport = some ⟨env.timestamp, emsg⟩) ∧
     (∀ e, env.errorWriteErr = some e →
       (readRun env).errorReport = none ∧ (readRun env).outerCatchHit = true)) := by
  constructor
  · cases writeOk with
    | true =>
      exact ⟨rfl, rfl, rfl, fun _ => rfl, fun hw => absurd hw (by decide)⟩
    | false =>
      exact ⟨rfl, rfl, rfl, fun hw => absurd hw (by decide), fun _ => ⟨rfl, rfl⟩⟩
  · have hrun : readRun env = readDownloadCatch env (readExpectedSize env) emsg false [] := by
      rw [readRun, hhead, hdl]
      simp [hok]
    rw [hrun]
    cases hw : env.errorWriteErr with
    | none =>
      rw [readDownloadCatch, hw]
      exact ⟨rfl, rfl, fun _ => rfl, fun e he => by simp at he⟩
    | some e0 =>
      rw [readDownloadCatch, hw]
      exact ⟨rfl, rfl, fun hc => by simp at hc, fun e he => ⟨rfl, rfl⟩⟩

theorem toplevel_error_handling_witness :
    ((latencyCatch "t0" "boom" true).timesCaught = 1 ∧
     (latencyCatch "t0" "boom" true).errorLogged = true ∧
     (latencyCatch "t0" "boom" true).exitCode = 1 ∧
     (true = true → (latencyCatch "t0" "boom" true).errorReport = some ⟨"t0", "boom"⟩) ∧
     (true = false → (latencyCatch "t0" "boom" true).errorReport = none ∧
       (latencyCatch "t0" "boom" true).writeFailureLogged = true)) ∧
    ((readRun ⟨.error "meta down", .ok ⟨true⟩, .error "reset", none, none, "t0"⟩).downloadErrorCaught = 1 ∧
     (readRun ⟨.error "meta down", .ok ⟨true⟩, .error "reset", none, none, "t0"⟩).exitCode = 1 ∧
     ((⟨.error "meta down", .ok ⟨true⟩, .error "reset", none, none, "t0"⟩ : ReadEnv).errorWriteErr = none →
       (readRun ⟨.error "meta down", .ok ⟨true⟩, .error "reset", none, none, "t0"⟩).errorReport =
         some ⟨"t0", "reset"⟩) ∧
     (∀ e, (⟨.error "meta down", .ok ⟨true⟩, .error "reset", none, none, "t0"⟩ : ReadEnv).errorWriteErr = some e →
       (readRun ⟨.error "meta down", .ok ⟨true⟩, .error "reset", none, none, "t0"⟩).errorReport = none ∧
       (readRun ⟨.error "meta down", .ok ⟨true⟩, .error "reset", none, none, "t0"⟩).outerCatchHit = true)) :=
  toplevel_error_handling "t0" "boom" true
    ⟨.error "meta down", .ok ⟨true⟩, .error "reset", none, none, "t0"⟩ "reset"
    ⟨true⟩ rfl rfl rfl

/-- C10: when the read test writes its report, `verification.sizeMatch` is
`null` and no size-verification line is printed whenever the metadata fetch
threw, returned a non-ok status, or declared a data size of 0; `sizeMatch`
is a boolean exactly when the declared expected size is strictly positive. -/
theorem sizeMatch_null_without_metadata (env : ReadEnv) (r : ReadReport)
    (hr : (readRun env).report = some r) :
    ((match env.metaResult with
      | .error _ => True
      | .ok m => m.ok = false ∨ m.dataSize = 0) →
        r.sizeMatch = none ∧ (readRun env).sizeLinePrinted = false) ∧
    (r.sizeMatch.isSome = true ↔ 0 < readExpectedSize env) := by
  obtain ⟨metaR, headR, dlR, rwErr, ewErr, ts⟩ := env
  rcases headR with e | h0
  · exact absurd hr (by simp [readRun])
  · obtain ⟨hok⟩ := h0
    cases hok with
    | false => exact absurd hr (by simp [readRun])
    | true =>
      rcases dlR with e | d0
      · rcases ewErr with _ | w
        · exact absurd hr (by simp [readRun, readDownloadCatch])
        · exact absurd hr (by simp [readRun, readDownloadCatch])
      · obtain ⟨dok, chunks⟩ := d0
        cases dok with
        | false => exact absurd hr (by simp [readRun])
        | true =>
          rcases rwErr with _ | w
          · have hr2 : some (⟨readExpectedSize ⟨metaR, .ok ⟨true⟩, .ok ⟨true, chunks⟩, none, ewErr, ts⟩,
                chunks.sum, chunks.length,
                if 0 < readExpectedSize ⟨metaR, .ok ⟨true⟩, .ok ⟨true, chunks⟩, none, ewErr, ts⟩
                then some ((readExpectedSize ⟨metaR, .ok ⟨true⟩, .ok ⟨true, chunks⟩, none, ewErr, ts⟩)
                  == chunks.sum)
                else none⟩ : ReadReport) = some r := hr
            injection hr2 with hr3
            subst hr3
            rcases metaR with me | m0
            · refine ⟨fun _ => ⟨rfl, rfl⟩, ?_⟩
              simp [readExpectedSize]
            · obtain ⟨mok, msize⟩ := m0
              cases mok with
              | false => exact ⟨fun _ => ⟨rfl, rfl⟩, by simp [readExpectedSize]⟩
              | true =>
                constructor
                · intro hm
                  rcases hm with hm | hm
                  · exact Bool.noConfusion hm
                  · have hm2 : msize = 0 := hm
                    subst hm2
                    exact ⟨rfl, rfl⟩
                · by_cases hc : 0 < msize
                  · simp [readExpectedSize, hc]
                  · simp [readExpectedSize, hc]
          · rcases ewErr with _ | w2
            · exact absurd hr (by simp [readRun, readDownloadCatch])
            · exact absurd hr (by simp [readRun, readDownloadCatch])

theorem sizeMatch_null_without_metadata_witness :
    ((match (Except.error "down" : Except String MetaResponse) with
      | .error _ => True
      | .ok m => m.ok = false ∨ m.dataSize = 0) →
        (⟨0, 50, 1, none⟩ : ReadReport).sizeMatch = none ∧
        (readRun ⟨.error "down", .ok ⟨true⟩, .ok ⟨true, [50]⟩, none, none, "t1"⟩).sizeLinePrinted
          = false) ∧
    ((⟨0, 50, 1, none⟩ : ReadReport).sizeMatch.isSome = true ↔
      0 < readExpectedSize ⟨.error "down", .ok ⟨true⟩, .ok ⟨true, [50]⟩, none, none, "t1"⟩) :=
  sizeMatch_null_without_metadata
    ⟨.error "down", .ok ⟨true⟩, .ok ⟨true, [50]⟩, none, none, "t1"⟩
    ⟨0, 50, 1, none⟩ (by rfl)

end ArweaveScript
